import Mathlib

/-!
Verification development for the MoGuardCore control plane.

The definitions below are a shallow embedding of the usage-accounting,
reached-tracking, reconciliation, link-generation and admin-cache logic of
the repository (src/db/models/subscription.py, src/tasks/reached_tracker.py,
src/tasks/subs_tracker.py, src/utils/links.py, src/utils/cache.py).
Machine integers are modelled as `Int`, SQL float columns as `Option Rat`,
wall-clock instants as explicit `now` parameters (unix seconds), and
nullable timestamp columns as `Option Int`.
-/

namespace MoGuard

/-- Truncation toward zero: the semantics of Python `int()` applied to a
numeric value, used by the usage-crediting code `int(delta * rate)`. -/
def truncRat (q : ℚ) : ℤ := if 0 ≤ q then Rat.floor q else -(Rat.floor (-q))

/-- Row of the `subscription_usages` table.  `usage` is the adjusted byte
count, `rawUsage` embeds the `_usage` column (last seen upstream lifetime
counter).  `created_at` is the hour bucket; times are unix seconds. -/
structure SubscriptionUsage where
  subscription_id : ℤ
  node_id : ℤ
  usage : ℤ
  rawUsage : ℤ
  created_at : ℤ
  updated_at : ℤ
deriving DecidableEq, Repr

/-- Node row (src/db/models/node.py): the fields the core logic reads.
`usage_rate` is a nullable SQL float, embedded as `Option ℚ`. -/
structure Node where
  id : ℤ
  enabled : Bool
  removed : Bool
  usage_rate : Option ℚ
  offset_link : ℕ
  batch_size : ℕ
  priority : ℤ
  show_configs : Bool
deriving DecidableEq, Repr

/-- Node.availabled hybrid property: `enabled and not removed`. -/
def Node.availabled (n : Node) : Bool := n.enabled && !n.removed

/-- Python expression `node.usage_rate or 1.0`: both `None` and `0.0` are
falsy and fall back to `1.0`. -/
def effective_rate (r : Option ℚ) : ℚ :=
  match r with
  | none => 1
  | some x => if x = 0 then 1 else x

/-- Subscription row: the columns the claims touch.  Nullable integer
quota columns are embedded as `ℤ` with `0` standing for SQL NULL exactly as
the hybrid properties coalesce them; nullable timestamps are `Option ℤ`. -/
structure Subscription where
  id : ℤ
  enabled : Bool
  activated : Bool
  reached : Bool
  debted : Bool
  onreached_expire : Bool
  onreached_usage : Bool
  removed : Bool
  server_key : String
  limit_usage : ℤ
  reset_usage : ℤ
  limit_expire : ℤ
  total_usage : ℤ
  reached_at : Option ℤ
  inactive_at : Option ℤ
  last_reset_at : Option ℤ
  online_at : Option ℤ
deriving DecidableEq, Repr

/-- Hybrid property `current_usage = total_usage - (reset_usage or 0)`. -/
def Subscription.current_usage (s : Subscription) : ℤ :=
  s.total_usage - s.reset_usage

/-- In-memory hybrid property `limited`: false when `limit_usage` is null
or non-positive, else `(limit_usage - current_usage) < 0`. -/
def Subscription.limited (s : Subscription) : Bool :=
  if s.limit_usage ≤ 0 then false
  else decide (s.limit_usage - s.current_usage < 0)

/-- In-memory hybrid property `expired`: when `limit_expire > 0` it holds
iff `now_ts > limit_expire` (strict), else false. -/
def Subscription.expired (now_ts : ℤ) (s : Subscription) : Bool :=
  if 0 < s.limit_expire then decide (s.limit_expire < now_ts) else false

/-- In-memory hybrid property `pending`: `limit_expire < 0`. -/
def Subscription.pending (s : Subscription) : Bool := decide (s.limit_expire < 0)

/-- In-memory hybrid property `is_active`. -/
def Subscription.is_active (now_ts : ℤ) (s : Subscription) : Bool :=
  s.enabled && s.activated && !(s.expired now_ts) && !s.limited && !s.debted

/-- SQL fragment `_expired_expr(now_ts)` from src/tasks/reached_tracker.py:
`(limit_expire > 0) & (limit_expire < now_ts)`. -/
def expired_expr (now_ts : ℤ) (s : Subscription) : Bool :=
  decide (0 < s.limit_expire) && decide (s.limit_expire < now_ts)

/-- SQL fragment `_limited_expr()` from src/tasks/reached_tracker.py:
`coalesce(limit_usage,0) > 0 & (limit_usage - (total_usage - coalesce(reset_usage,0))) < 0`. -/
def limited_expr (s : Subscription) : Bool :=
  decide (0 < s.limit_usage) &&
    decide (s.limit_usage - (s.total_usage - s.reset_usage) < 0)

/-- Property `should_be_remove`: reached_at or inactive_at strictly older
than one day (86400 s). -/
def Subscription.should_be_remove (now : ℤ) (s : Subscription) : Bool :=
  (match s.reached_at with
   | some t => decide (86400 < now - t)
   | none => false)
  ||
  (match s.inactive_at with
   | some t => decide (86400 < now - t)
   | none => false)

/-- Entry of the `usages` dict passed to `bulk_upsert_usages`: one node with
its reported lifetime counter and the hour bucket. -/
structure UpsertEntry where
  node : Node
  counter : ℤ
  created_at : ℤ
deriving DecidableEq, Repr

/-- Scan a row list for the first row satisfying `p`, replace it by `f` of
it (which also reports whether it counts as a change), leaving the rest in
place; mirrors the in-place for/break row scan of `bulk_upsert_usages`.
Returns (new rows, found flag, changed flag). -/
def scan_update (p : SubscriptionUsage → Bool)
    (f : SubscriptionUsage → SubscriptionUsage × Bool) :
    List SubscriptionUsage → List SubscriptionUsage × Bool × Bool
  | [] => ([], false, false)
  | r :: rs =>
    if p r then ((f r).1 :: rs, true, (f r).2)
    else
      let q := scan_update p f rs
      (r :: q.1, q.2.1, q.2.2)

/-- Matched-row transformer of the bulk path: when the stored counter
differs, a negative delta is only logged (row untouched, not counted as a
change); a positive delta credits `usage += int(delta*rate)` clamped at 0
and records the new counter and `updated_at = now`. -/
def credit_row_bulk (now : ℤ) (rate : ℚ) (counter : ℤ)
    (r : SubscriptionUsage) : SubscriptionUsage × Bool :=
  if r.rawUsage = counter then (r, false)
  else if counter - r.rawUsage < 0 then (r, false)
  else
    let u := r.usage + truncRat ((counter - r.rawUsage : ℤ) * rate)
    ({ r with usage := if u < 0 then 0 else u
              rawUsage := counter
              updated_at := now }, true)

/-- Row freshly inserted by either upsert path. -/
def new_usage_row (now sid : ℤ) (rate : ℚ) (e : UpsertEntry) : SubscriptionUsage :=
  { subscription_id := sid
    node_id := e.node.id
    usage := truncRat ((e.counter : ℤ) * rate)
    rawUsage := e.counter
    created_at := e.created_at
    updated_at := now }

/-- Processing of one entry of the bulk loop: entries with
`usage_value <= 0` are skipped; otherwise the matching
`(node_id, created_at)` row is credited, or a new row appended. -/
def process_entry (now sid : ℤ) (e : UpsertEntry)
    (rows : List SubscriptionUsage) : List SubscriptionUsage × Bool :=
  if e.counter ≤ 0 then (rows, false)
  else
    let rate := effective_rate e.node.usage_rate
    let q := scan_update
      (fun r => decide (r.node_id = e.node.id) && decide (r.created_at = e.created_at))
      (credit_row_bulk now rate e.counter) rows
    if q.2.1 then (q.1, q.2.2)
    else (rows ++ [new_usage_row now sid rate e], true)

/-- Fold of the bulk loop over all entries, threading the `changed` flag. -/
def bulk_apply (now sid : ℤ) (entries : List UpsertEntry)
    (rows : List SubscriptionUsage) : List SubscriptionUsage × Bool :=
  entries.foldl
    (fun acc e =>
      let q := process_entry now sid e acc.1
      (q.1, acc.2 || q.2))
    (rows, false)

/-- Subscription.activate_expire: when `limit_expire` is negative, replace
it by `now + |limit_expire|` and emit the ActivatedExpire notification
(returned as the boolean). -/
def Subscription.activate_expire (now : ℤ) (s : Subscription) : Subscription × Bool :=
  if s.limit_expire < 0 then
    ({ s with limit_expire := now + |s.limit_expire| }, true)
  else (s, false)

/-- Subscription.bulk_upsert_usages: apply all entries, then call
`activate_expire` iff some row changed.  Returns the new rows, the new
subscription state and whether ActivatedExpire was emitted. -/
def Subscription.bulk_upsert_usages (now : ℤ) (s : Subscription)
    (entries : List UpsertEntry) (rows : List SubscriptionUsage) :
    List SubscriptionUsage × Subscription × Bool :=
  let p := bulk_apply now s.id entries rows
  if p.2 then
    let a := s.activate_expire now
    (p.1, a.1, a.2)
  else (p.1, s, false)

/-- Matched-row transformer of the single-row path `upsert_usage`: unlike
the bulk path, a negative delta updates `_usage` and `updated_at`. -/
def credit_row_single (now : ℤ) (rate : ℚ) (counter : ℤ)
    (r : SubscriptionUsage) : SubscriptionUsage × Bool :=
  if r.rawUsage = counter then (r, false)
  else if counter - r.rawUsage < 0 then
    ({ r with rawUsage := counter, updated_at := now }, true)
  else
    let u := r.usage + truncRat ((counter - r.rawUsage : ℤ) * rate)
    ({ r with usage := if u < 0 then 0 else u
              rawUsage := counter
              updated_at := now }, true)

/-- Subscription.upsert_usage (single-row path): returns the new rows, the
new subscription state and whether ActivatedExpire was emitted.  The early
returns (`usage <= 0`, unchanged counter) skip `activate_expire`; every
other path reaches it. -/
def Subscription.upsert_usage (now : ℤ) (s : Subscription) (node : Node)
    (counter created_at : ℤ) (rows : List SubscriptionUsage) :
    List SubscriptionUsage × Subscription × Bool :=
  if counter ≤ 0 then (rows, s, false)
  else
    let rate := effective_rate node.usage_rate
    match rows.find? (fun r =>
        decide (r.node_id = node.id) && decide (r.created_at = created_at)) with
    | some r =>
      if r.rawUsage = counter then (rows, s, false)
      else
        let q := scan_update
          (fun x => decide (x.node_id = node.id) && decide (x.created_at = created_at))
          (credit_row_single now rate counter) rows
        let a := s.activate_expire now
        (q.1, a.1, a.2)
    | none =>
      let a := s.activate_expire now
      (rows ++ [new_usage_row now s.id rate ⟨node, counter, created_at⟩], a.1, a.2)

/-- Per-subscription value written by `sync_cached_usages` into
`total_usage`: `sum(greatest(usage, 0))` over the subscription's rows. -/
def sum_max_usage (rows : List SubscriptionUsage) : ℤ :=
  (rows.map (fun r => max r.usage 0)).sum

/-- Subscription.sync_cached_usages restricted to one subscription: refresh
the cached `total_usage` column from its usage rows. -/
def Subscription.sync_cached_usages (s : Subscription)
    (rows : List SubscriptionUsage) : Subscription :=
  { s with total_usage := sum_max_usage rows }

/-- Subscription.reset_usages: `reset_usage = total_usage`,
`last_reset_at = now`. -/
def Subscription.reset_usages (now : ℤ) (s : Subscription) : Subscription :=
  { s with reset_usage := s.total_usage, last_reset_at := some now }

/-- Row of the `subscription_auto_renewals` table. -/
structure Renewal where
  id : ℤ
  subscription_id : ℤ
  limit_usage : ℤ
  limit_expire : ℤ
  reset_usage : Bool
deriving DecidableEq, Repr

/-- First element of a renewal list under the `order_by id asc` ranking:
the row with the minimum id (earliest occurrence on a tie). -/
def argmin_id : List Renewal → Option Renewal
  | [] => none
  | r :: rs =>
    match argmin_id rs with
    | none => some r
    | some b => if r.id ≤ b.id then some r else some b

/-- The `rn = 1` renewal of a given subscription: the row with minimum id
among the rows whose `subscription_id` matches. -/
def min_id_renewal (renewals : List Renewal) (sid : ℤ) : Option Renewal :=
  argmin_id (renewals.filter (fun r => decide (r.subscription_id = sid)))

/-- WHERE clause of the auto-renewal candidates query:
`removed == False, reached == True, limited or expired`. -/
def qualifies_renewal (now_ts : ℤ) (s : Subscription) : Bool :=
  !s.removed && s.reached && (limited_expr s || expired_expr now_ts s)

/-- New `limit_expire` computed by `_process_auto_renewals_batch`: keep a
negative renewal value, shift a positive one by `now_ts`, and `0` as is. -/
def new_limit_expire (now_ts renewal_limit_expire : ℤ) : ℤ :=
  if renewal_limit_expire < 0 then renewal_limit_expire
  else if 0 < renewal_limit_expire then now_ts + renewal_limit_expire
  else 0

/-- Update payload applied to one subscription by the auto-renewal batch. -/
def apply_renewal (now_utc now_ts : ℤ) (s : Subscription) (r : Renewal) : Subscription :=
  let base := { s with
    limit_usage := r.limit_usage
    limit_expire := new_limit_expire now_ts r.limit_expire
    reached := false
    reached_at := none
    onreached_expire := false
    onreached_usage := false }
  if r.reset_usage then
    { base with reset_usage := s.total_usage, last_reset_at := some now_utc }
  else base

/-- Renewal consumed for one subscription on this tick, if any. -/
def consumed_renewal (now_ts : ℤ) (renewals : List Renewal)
    (s : Subscription) : Option Renewal :=
  if qualifies_renewal now_ts s then min_id_renewal renewals s.id else none

/-- The function `_process_auto_renewals_batch` of
src/tasks/reached_tracker.py: each qualifying reached subscription applies
its minimum-id renewal row, and exactly the consumed rows are deleted. -/
def process_auto_renewals_batch (now_utc now_ts : ℤ)
    (subs : List Subscription) (renewals : List Renewal) :
    List Subscription × List Renewal :=
  let consumedIds := subs.filterMap
    (fun s => (consumed_renewal now_ts renewals s).map (fun r => r.id))
  (subs.map (fun s =>
      match consumed_renewal now_ts renewals s with
      | some r => apply_renewal now_utc now_ts s r
      | none => s),
   renewals.filter (fun r => !(consumedIds.contains r.id)))

/-- Exclusion set of the reconciler garbage-collection step
(`perform_sync_operations`): server keys of the given subscriptions that
are not `should_be_remove`. -/
def local_usernames (now : ℤ) (subs : List Subscription) : List String :=
  (subs.filter (fun s => !(s.should_be_remove now))).map (fun s => s.server_key)

/-- Usernames deleted from one node by the garbage-collection step: every
reported username that is not a local username and not `"guard"`. -/
def gc_removals (now : ℤ) (subs : List Subscription)
    (users : List String) : List String :=
  users.filter (fun u =>
    !((local_usernames now subs).contains u) && u ≠ "guard")

/-- Owner (admin) fields read by the link generator; `max_links` is a
nullable integer column. -/
structure Owner where
  max_links : Option ℤ
deriving DecidableEq, Repr

/-- Python `sub.owner.max_links if sub.owner.max_links and sub.owner.max_links > 0 else None`. -/
def max_links_of (o : Owner) : Option ℕ :=
  match o.max_links with
  | none => none
  | some v => if 0 < v then some v.toNat else none

/-- Guard `max_links and link_count >= max_links` of the interleave loop. -/
def stop_at (maxLinks : Option ℕ) (c : ℕ) : Bool :=
  match maxLinks with
  | none => false
  | some m => decide (m ≤ c)

/-- One pass of the interleaving `for node in node_links_map` loop: walk the
per-node cursor entries in order, skipping empty ones, stopping when
`max_links` is reached, otherwise emitting up to `batch_size` links from the
entry (truncated at `max_links`) and advancing its cursor by `batch_size`.
Returns the accumulated emitted links and the updated entries. -/
def run_pass (maxLinks : Option ℕ) :
    List String → List (Node × List String) →
    List String × List (Node × List String)
  | acc, [] => (acc, [])
  | acc, (n, ls) :: rest =>
    if ls.isEmpty then
      let q := run_pass maxLinks acc rest
      (q.1, (n, ls) :: q.2)
    else if stop_at maxLinks acc.length then (acc, (n, ls) :: rest)
    else
      let takeN := match maxLinks with
        | none => n.batch_size
        | some m => min n.batch_size (m - acc.length)
      let q := run_pass maxLinks (acc ++ ls.take takeN) rest
      (q.1, (n, ls.drop n.batch_size) :: q.2)

/-- The `while any(node_links_map.values())` loop: run passes until all
entries are empty or `max_links` is reached.  Recursion is paced by an
explicit fuel; the caller passes one unit more than the total number of
cached links, which covers every terminating run of the source loop. -/
def interleave_loop (maxLinks : Option ℕ) :
    ℕ → List String → List (Node × List String) → List String
  | 0, acc, _ => acc
  | fuel + 1, acc, entries =>
    if entries.all (fun e => e.2.isEmpty) then acc
    else
      let q := run_pass maxLinks acc entries
      if stop_at maxLinks q.1.length then q.1
      else interleave_loop maxLinks fuel q.1 q.2

/-- Stable insertion for descending sort by `priority`
(`sorted(sub.nodes, key=lambda n: n.priority, reverse=True)`). -/
def insert_priority_desc (n : Node) : List Node → List Node
  | [] => [n]
  | m :: ms =>
    if m.priority < n.priority then n :: m :: ms
    else m :: insert_priority_desc n ms

/-- Descending stable sort of the subscription's nodes by priority. -/
def sort_priority_desc (l : List Node) : List Node :=
  l.foldr insert_priority_desc []

/-- Non-placeholder part of `LinkGeneration.generate`: empty when the
subscription is not active; otherwise interleave the rewritten per-node
links (priority-descending, availabled and show_configs only, offset
applied, shuffled) under the owner's `max_links` cap.  `node_links` stands
for the credential-rewritten cached links of each node and `shuffle` for
the `random.shuffle` permutation drawn for each node. -/
def generate_links (now_ts : ℤ) (sub : Subscription) (owner : Owner)
    (nodes : List Node) (node_links : ℤ → List String)
    (shuffle : ℤ → List String → List String) : List String :=
  if sub.is_active now_ts then
    let sorted := sort_priority_desc nodes
    let active := sorted.filter (fun n => n.availabled && n.show_configs)
    let entries := active.map
      (fun n => (n, shuffle n.id ((node_links n.id).drop n.offset_link)))
    let fuel := (entries.map (fun e => e.2.length)).sum + 1
    interleave_loop (max_links_of owner) fuel [] entries
  else []

/-- LinkGeneration.generate: the placeholder links always come first,
followed by the interleaved per-node links (empty when inactive). -/
def generate (now_ts : ℤ) (sub : Subscription) (owner : Owner)
    (placeholders : List String) (nodes : List Node)
    (node_links : ℤ → List String)
    (shuffle : ℤ → List String → List String) : List String :=
  placeholders ++ generate_links now_ts sub owner nodes node_links shuffle

/-- Admin fields the admin cache indexes on. -/
structure Admin where
  id : ℤ
  username : String
  api_key : Option String
deriving DecidableEq, Repr

/-- Python truthiness of the nullable `api_key` string. -/
def hasKey : Option String → Bool
  | none => false
  | some s => !(s == "")

/-- AdminCacheManager state (src/utils/cache.py): three indices and the
`_cached_at` stamp written only by `set_all` and `clear`. -/
structure AdminCacheManager where
  by_username : String → Option Admin
  by_id : ℤ → Option Admin
  by_api_key : String → Option Admin
  cached_at : ℚ

/-- TTL constant `CACHE_TTL = 3000` seconds. -/
def CACHE_TTL : ℚ := 3000

/-- AdminCacheManager.is_expired: `time.time() - _cached_at > CACHE_TTL`. -/
def AdminCacheManager.is_expired (now : ℚ) (c : AdminCacheManager) : Bool :=
  decide (CACHE_TTL < now - c.cached_at)

/-- AdminCacheManager.get_by_username. -/
def AdminCacheManager.get_by_username (now : ℚ) (c : AdminCacheManager)
    (u : String) : Option Admin :=
  if c.is_expired now then none else c.by_username u

/-- AdminCacheManager.get_by_id. -/
def AdminCacheManager.get_by_id (now : ℚ) (c : AdminCacheManager)
    (i : ℤ) : Option Admin :=
  if c.is_expired now then none else c.by_id i

/-- AdminCacheManager.get_by_api_key. -/
def AdminCacheManager.get_by_api_key (now : ℚ) (c : AdminCacheManager)
    (k : String) : Option Admin :=
  if c.is_expired now then none else c.by_api_key k

/-- AdminCacheManager.set_all: rebuild all three indices (later list
entries win, as in a dict comprehension) and stamp `_cached_at = now`. -/
def AdminCacheManager.set_all (now : ℚ) (admins : List Admin) : AdminCacheManager :=
  { by_username := fun u => admins.reverse.find? (fun a => a.username == u)
    by_id := fun i => admins.reverse.find? (fun a => a.id == i)
    by_api_key := fun k =>
      (admins.filter (fun a => hasKey a.api_key)).reverse.find?
        (fun a => a.api_key == some k)
    cached_at := now }

/-- AdminCacheManager.update: write-through of one admin.  The stale api-key
index entry is evicted when the key changed; `_cached_at` is untouched. -/
def AdminCacheManager.update (c : AdminCacheManager) (a : Admin) : AdminCacheManager :=
  let apiAfterPop : String → Option Admin :=
    match c.by_id a.id with
    | some old =>
      if hasKey old.api_key && !(old.api_key == a.api_key) then
        fun k => if old.api_key == some k then none else c.by_api_key k
      else c.by_api_key
    | none => c.by_api_key
  { by_username := fun u => if u == a.username then some a else c.by_username u
    by_id := fun i => if i == a.id then some a else c.by_id i
    by_api_key := fun k =>
      if hasKey a.api_key && a.api_key == some k then some a else apiAfterPop k
    cached_at := c.cached_at }

/-! Helper lemmas about `truncRat`. -/

theorem rat_floor_eq_intFloor (q : ℚ) : Rat.floor q = ⌊q⌋ := by
  rw [Rat.floor_def' q, Rat.floor_def]

theorem truncRat_eq_floor_of_nonneg {q : ℚ} (h : 0 ≤ q) : truncRat q = ⌊q⌋ := by
  rw [truncRat, if_pos h, rat_floor_eq_intFloor]

theorem truncRat_nonneg {q : ℚ} (h : 0 ≤ q) : 0 ≤ truncRat q := by
  rw [truncRat_eq_floor_of_nonneg h]
  exact Int.floor_nonneg.mpr h

theorem truncRat_intCast (z : ℤ) : truncRat (z : ℚ) = z := by
  rcases le_or_lt 0 (z : ℚ) with h | h
  · rw [truncRat_eq_floor_of_nonneg h, Int.floor_intCast]
  · rw [truncRat, if_neg (not_le.mpr h), ← Int.cast_neg, rat_floor_eq_intFloor,
      Int.floor_intCast, neg_neg]

theorem truncRat_eq_of {z : ℤ} {q : ℚ} (h0 : 0 ≤ q) (h1 : (z : ℚ) ≤ q)
    (h2 : q < z + 1) : truncRat q = z := by
  rw [truncRat_eq_floor_of_nonneg h0]
  refine le_antisymm ?_ (Int.le_floor.mpr h1)
  have hlt : (⌊q⌋ : ℚ) < (z : ℚ) + 1 := lt_of_le_of_lt (Int.floor_le q) h2
  have : (⌊q⌋ : ℚ) < ((z + 1 : ℤ) : ℚ) := by push_cast; linarith
  exact Int.lt_add_one_iff.mp (by exact_mod_cast this)

/-! Concrete fixtures used by counterexamples and witnesses. -/

/-- Baseline subscription fixture; individual claims override fields. -/
def baseSub : Subscription :=
  { id := 7
    enabled := true
    activated := true
    reached := false
    debted := false
    onreached_expire := false
    onreached_usage := false
    removed := false
    server_key := "srv_x"
    limit_usage := 0
    reset_usage := 0
    limit_expire := 0
    total_usage := 0
    reached_at := none
    inactive_at := none
    last_reset_at := none
    online_at := none }

/-- Baseline node fixture with a null `usage_rate` (Python falls back to 1.0). -/
def baseNode : Node :=
  { id := 1
    enabled := true
    removed := false
    usage_rate := none
    offset_link := 0
    batch_size := 1
    priority := 0
    show_configs := true }

/-- Usage-row fixture for the counter-reset scenario: the stored counter is
1000 while the node now reports 800. -/
def c1_row : SubscriptionUsage :=
  { subscription_id := 7
    node_id := 1
    usage := 500
    rawUsage := 1000
    created_at := 0
    updated_at := 0 }

/-- C1: counter reset handling in the usage upsert.  The claim (and the
spec) require both paths to record the new lower counter in `_usage` with a
fresh `updated_at`.  The single-row path `upsert_usage` does exactly that,
but `bulk_upsert_usages` only logs the reset and leaves the row untouched:
with a stored counter of 1000 and a new upstream counter of 800, the bulk
path returns the row unchanged (`_usage` still 1000, `updated_at` still 0)
while the single-row path rewrites `_usage` to 800 and `updated_at` to now.
Neither path credits `usage`, so the no-phantom-credit half does hold. -/
theorem C1_counter_reset_divergence :
    Subscription.bulk_upsert_usages 99 baseSub [⟨baseNode, 800, 0⟩] [c1_row]
      = ([c1_row], baseSub, false)
    ∧ Subscription.upsert_usage 99 baseSub baseNode 800 0 [c1_row]
      = ([{ c1_row with rawUsage := 800, updated_at := 99 }], baseSub, false)
    ∧ c1_row.rawUsage = 1000 ∧ c1_row.usage = 500 := by decide

/-- C5 counterexample: an entry with counter 0 and no existing row does not
insert any row at all — `bulk_upsert_usages` skips entries with
`usage_value <= 0` before the lookup, so the claimed
`usage = 0, _usage = 0` row never appears and no change is recorded. -/
theorem C5_zero_counter_counterexample :
    Subscription.bulk_upsert_usages 99 baseSub [⟨baseNode, 0, 0⟩] []
      = ([], baseSub, false) := by decide

/-- C5 amended: only entries with a strictly positive counter and no
matching `(node, created_at)` row insert a new row, and that row carries
`usage = int(counter * rate)` (truncation), `_usage = counter` and the
entry's hour bucket; entries with counter ≤ 0 are skipped entirely. -/
theorem C5_insert_rule (now : ℤ) (s : Subscription) (e : UpsertEntry)
    (rows : List SubscriptionUsage)
    (hnomatch : ∀ x ∈ rows,
      ¬(x.node_id = e.node.id ∧ x.created_at = e.created_at)) :
    (0 < e.counter →
      process_entry now s.id e rows
        = (rows ++ [new_usage_row now s.id (effective_rate e.node.usage_rate) e],
           true))
    ∧ (e.counter ≤ 0 → process_entry now s.id e rows = (rows, false))
    ∧ (new_usage_row now s.id (effective_rate e.node.usage_rate) e).usage
        = truncRat ((e.counter : ℤ) * effective_rate e.node.usage_rate)
    ∧ (new_usage_row now s.id (effective_rate e.node.usage_rate) e).rawUsage
        = e.counter
    ∧ (new_usage_row now s.id (effective_rate e.node.usage_rate) e).created_at
        = e.created_at := by
  have hscan : ∀ l : List SubscriptionUsage,
      (∀ x ∈ l, ¬(x.node_id = e.node.id ∧ x.created_at = e.created_at)) →
      scan_update
        (fun r => decide (r.node_id = e.node.id) && decide (r.created_at = e.created_at))
        (credit_row_bulk now (effective_rate e.node.usage_rate) e.counter) l
        = (l, false, false) := by
    intro l
    induction l with
    | nil => intro _; rfl
    | cons r rs ih =>
      intro h
      have hr : ¬(r.node_id = e.node.id ∧ r.created_at = e.created_at) :=
        h r (List.mem_cons_self r rs)
      have hp : (decide (r.node_id = e.node.id) &&
          decide (r.created_at = e.created_at)) = false := by
        rcases Decidable.not_and_iff_or_not.mp hr with h1 | h1 <;> simp [h1]
      have hrs := ih (fun x hx => h x (List.mem_cons_of_mem r hx))
      simp [scan_update, hp, hrs]
  refine ⟨?_, ?_, rfl, rfl, rfl⟩
  · intro hpos
    have hne : ¬ e.counter ≤ 0 := not_le.mpr hpos
    simp [process_entry, hne, hscan rows hnomatch]
  · intro hle
    simp [process_entry, hle]

/-- C5 witness: a positive counter with no matching row inserts the new row
and flags a change. -/
theorem C5_insert_rule_witness :
    process_entry 99 baseSub.id ⟨baseNode, 5, 0⟩ []
      = ([new_usage_row 99 baseSub.id (effective_rate baseNode.usage_rate)
            ⟨baseNode, 5, 0⟩], true) :=
  (C5_insert_rule 99 baseSub ⟨baseNode, 5, 0⟩ [] (by simp)).1 (by decide)

/-- C6 counterexample: at the exact boundary instant `now = limit_expire`
the code does not count the subscription as expired — both the in-memory
property and the SQL fragment use a strict comparison, while the claim
demands `now ≥ limit_expire ⇒ expired`. -/
theorem C6_boundary_counterexample :
    0 < ({ baseSub with limit_expire := 5 } : Subscription).limit_expire
    ∧ (5 : ℤ) ≥ ({ baseSub with limit_expire := 5 } : Subscription).limit_expire
    ∧ Subscription.expired 5 { baseSub with limit_expire := 5 } = false
    ∧ expired_expr 5 { baseSub with limit_expire := 5 } = false := by decide

/-- C6 amended: `expired ⇔ limit_expire > 0 ∧ now > limit_expire` (strict,
so the boundary instant `now = limit_expire` is not yet expired);
`limit_expire = 0` is never expired; and the in-memory predicate and the
Reached Tracker's SQL fragment agree everywhere. -/
theorem C6_expired_strict (now_ts : ℤ) (s : Subscription) :
    (Subscription.expired now_ts s
      = (decide (0 < s.limit_expire) && decide (s.limit_expire < now_ts)))
    ∧ expired_expr now_ts s = Subscription.expired now_ts s
    ∧ (s.limit_expire = 0 → Subscription.expired now_ts s = false) := by
  refine ⟨?_, ?_, ?_⟩
  · by_cases h : 0 < s.limit_expire <;>
      simp [Subscription.expired, h]
  · by_cases h : 0 < s.limit_expire <;>
      simp [Subscription.expired, expired_expr, h]
  · intro h; simp [Subscription.expired, h]

/-- C6 witness: the zero / unlimited case evaluated concretely. -/
theorem C6_expired_strict_witness :
    Subscription.expired 5 baseSub = false :=
  (C6_expired_strict 5 baseSub).2.2 rfl

/-- Node fixture with `usage_rate = 0.5`. -/
def c2_node : Node := { baseNode with usage_rate := some (1/2) }

/-- Fresh usage row with both counters at zero. -/
def c2_row : SubscriptionUsage :=
  { subscription_id := 7
    node_id := 1
    usage := 0
    rawUsage := 0
    created_at := 0
    updated_at := 0 }

/-- C2 counterexample: with `usage_rate = 0.5` and a delta of 3, the code
credits `int(3 * 0.5) = 1` byte (truncation toward zero), not
`round(3 * 0.5) = 2` as the claim states. -/
theorem C2_round_counterexample :
    (Subscription.bulk_upsert_usages 99 baseSub [⟨c2_node, 3, 0⟩] [c2_row]).1
      = [{ c2_row with usage := 1, rawUsage := 3, updated_at := 99 }]
    ∧ round ((3 : ℚ) * (1/2)) = 2 := by
  constructor
  · have hrate : effective_rate (some ((2 : ℚ)⁻¹)) = (2 : ℚ)⁻¹ := by
      norm_num [effective_rate]
    have htr : truncRat ((3 : ℚ) * effective_rate (some ((2 : ℚ)⁻¹))) = 1 := by
      rw [hrate]
      apply truncRat_eq_of <;> norm_num
    simp [Subscription.bulk_upsert_usages, bulk_apply, process_entry, scan_update,
      credit_row_bulk, c2_node, c2_row, baseNode, baseSub, htr]
  · have : ((3 : ℚ) * (1/2)) = 3/2 := by norm_num
    rw [this, round_eq, show (3 : ℚ)/2 + 1/2 = ((2 : ℤ) : ℚ) by push_cast; ring,
      Int.floor_intCast]

theorem scan_update_found (p : SubscriptionUsage → Bool)
    (f : SubscriptionUsage → SubscriptionUsage × Bool)
    (pre post : List SubscriptionUsage) (r : SubscriptionUsage)
    (hpre : ∀ x ∈ pre, p x = false) (hr : p r = true) :
    scan_update p f (pre ++ r :: post) = (pre ++ (f r).1 :: post, true, (f r).2) := by
  induction pre with
  | nil => simp [scan_update, hr]
  | cons a as ih =>
    have ha : p a = false := hpre a (List.mem_cons_self a as)
    have := ih (fun x hx => hpre x (List.mem_cons_of_mem a hx))
    simp [scan_update, ha, this]

theorem find_first_match (p : SubscriptionUsage → Bool)
    (pre post : List SubscriptionUsage) (r : SubscriptionUsage)
    (hpre : ∀ x ∈ pre, p x = false) (hr : p r = true) :
    (pre ++ r :: post).find? p = some r := by
  induction pre with
  | nil => simp [List.find?, hr]
  | cons a as ih =>
    have ha : p a = false := hpre a (List.mem_cons_self a as)
    have := ih (fun x hx => hpre x (List.mem_cons_of_mem a hx))
    simp [List.find?, ha, this]

/-- C2 amended: for a positive delta `d = counter - _usage` on an existing
row, both paths credit exactly `int(d * rate)` bytes — truncation toward
zero, not `round` — then clamp the result at 0 and refresh `_usage` and
`updated_at`; the bulk and single-row paths produce the identical row. -/
theorem C2_truncation_credit (now : ℤ) (s : Subscription) (e : UpsertEntry)
    (pre post : List SubscriptionUsage) (r : SubscriptionUsage)
    (hpre : ∀ x ∈ pre,
      (decide (x.node_id = e.node.id) && decide (x.created_at = e.created_at)) = false)
    (hn : r.node_id = e.node.id) (hb : r.created_at = e.created_at)
    (hcpos : 0 < e.counter) (hd : 0 < e.counter - r.rawUsage) :
    let rate := effective_rate e.node.usage_rate
    let u := r.usage + truncRat (((e.counter - r.rawUsage : ℤ) : ℚ) * rate)
    let r' : SubscriptionUsage :=
      { r with usage := if u < 0 then 0 else u, rawUsage := e.counter, updated_at := now }
    process_entry now s.id e (pre ++ r :: post) = (pre ++ r' :: post, true)
    ∧ Subscription.upsert_usage now s e.node e.counter e.created_at (pre ++ r :: post)
      = (pre ++ r' :: post, (s.activate_expire now).1, (s.activate_expire now).2)
    ∧ 0 ≤ (if u < 0 then 0 else u) := by
  intro rate u r'
  have hp : (decide (r.node_id = e.node.id) && decide (r.created_at = e.created_at)) = true := by
    simp [hn, hb]
  have hneq : ¬ r.rawUsage = e.counter := by omega
  have hnd : ¬ e.counter - r.rawUsage < 0 := by omega
  have hbulk : credit_row_bulk now rate e.counter r = (r', true) := by
    unfold credit_row_bulk
    rw [if_neg hneq, if_neg hnd]
  have hsingle : credit_row_single now rate e.counter r = (r', true) := by
    unfold credit_row_single
    rw [if_neg hneq, if_neg hnd]
  refine ⟨?_, ?_, ?_⟩
  · have hscan := scan_update_found _ (credit_row_bulk now rate e.counter) pre post r hpre hp
    simp [process_entry, not_le.mpr hcpos, hscan, hbulk]
  · have hfind := find_first_match _ pre post r hpre hp
    have hscan := scan_update_found _ (credit_row_single now rate e.counter) pre post r hpre hp
    simp [Subscription.upsert_usage, not_le.mpr hcpos, hfind, hneq, hscan, hsingle]
  · split <;> omega

/-- C2 witness: the positive-delta branch taken at a concrete input. -/
theorem C2_truncation_credit_witness :
    (process_entry 99 baseSub.id ⟨c2_node, 3, 0⟩ [c2_row]).2 = true
    ∧ 0 < (3 : ℤ) - c2_row.rawUsage := by
  constructor
  · have h := (C2_truncation_credit 99 baseSub ⟨c2_node, 3, 0⟩ [] [] c2_row
      (by simp) rfl rfl (by decide) (by decide)).1
    simpa using congrArg Prod.snd h
  · decide

/-- C4: pending-expiry activation through the bulk usage upsert.  When no
usage row changes the subscription (and its negative `limit_expire`) is
untouched and nothing is emitted; on the first changing upsert a negative
`limit_expire` becomes `now + |limit_expire|`, which is strictly positive,
and the ActivatedExpire notification fires; a non-negative `limit_expire`
is never modified and never re-notified, so the value stays positive and
the notification is emitted exactly once. -/
theorem C4_pending_activation (now : ℤ) (s : Subscription)
    (entries : List UpsertEntry) (rows : List SubscriptionUsage) :
    ((bulk_apply now s.id entries rows).2 = false →
      Subscription.bulk_upsert_usages now s entries rows
        = ((bulk_apply now s.id entries rows).1, s, false))
    ∧ ((bulk_apply now s.id entries rows).2 = true → s.limit_expire < 0 → 0 < now →
      (Subscription.bulk_upsert_usages now s entries rows).2.1.limit_expire
          = now + |s.limit_expire|
        ∧ 0 < (Subscription.bulk_upsert_usages now s entries rows).2.1.limit_expire
        ∧ (Subscription.bulk_upsert_usages now s entries rows).2.2 = true)
    ∧ (0 ≤ s.limit_expire →
      (Subscription.bulk_upsert_usages now s entries rows).2.1.limit_expire
          = s.limit_expire
        ∧ (Subscription.bulk_upsert_usages now s entries rows).2.2 = false) := by
  refine ⟨?_, ?_, ?_⟩
  · intro hch
    simp [Subscription.bulk_upsert_usages, hch]
  · intro hch hneg hnow
    have habs : |s.limit_expire| = -s.limit_expire := abs_of_neg hneg
    have hres : Subscription.bulk_upsert_usages now s entries rows
        = ((bulk_apply now s.id entries rows).1,
           { s with limit_expire := now + |s.limit_expire| }, true) := by
      simp only [Subscription.bulk_upsert_usages, hch, if_true,
        Subscription.activate_expire, if_pos hneg]
    rw [hres]
    exact ⟨rfl, by simp only [habs]; omega, rfl⟩
  · intro hge
    have hnneg : ¬ s.limit_expire < 0 := not_lt.mpr hge
    by_cases hch : (bulk_apply now s.id entries rows).2 = true
    · simp [Subscription.bulk_upsert_usages, hch, Subscription.activate_expire, hnneg]
    · simp [Subscription.bulk_upsert_usages, hch]

/-- C4 witness: a pending subscription (`limit_expire = -86400`) activated
by an inserting upsert at `now = 1000`; the untouched case with no entries. -/
theorem C4_pending_activation_witness :
    ((bulk_apply 1000 ({ baseSub with limit_expire := -86400 } : Subscription).id
        [⟨baseNode, 5, 0⟩] []).2 = true
      ∧ ({ baseSub with limit_expire := -86400 } : Subscription).limit_expire < 0
      ∧ (0 : ℤ) < 1000
      ∧ (Subscription.bulk_upsert_usages 1000 { baseSub with limit_expire := -86400 }
          [⟨baseNode, 5, 0⟩] []).2.1.limit_expire = 1000 + 86400
      ∧ (Subscription.bulk_upsert_usages 1000 { baseSub with limit_expire := -86400 }
          [⟨baseNode, 5, 0⟩] []).2.2 = true)
    ∧ Subscription.bulk_upsert_usages 1000 baseSub [] []
        = (([] : List SubscriptionUsage), baseSub, false) := by
  constructor
  · have hch : (bulk_apply 1000 ({ baseSub with limit_expire := -86400 } : Subscription).id
        [⟨baseNode, 5, 0⟩] []).2 = true := by decide
    have h := (C4_pending_activation 1000 { baseSub with limit_expire := -86400 }
      [⟨baseNode, 5, 0⟩] []).2.1 hch (by decide) (by decide)
    exact ⟨hch, by decide, by decide, by simpa using h.1, h.2.2⟩
  · exact (C4_pending_activation 1000 baseSub [] []).1 rfl

theorem foldl_update_cached_at (c : AdminCacheManager) (updates : List Admin) :
    (updates.foldl AdminCacheManager.update c).cached_at = c.cached_at := by
  induction updates generalizing c with
  | nil => rfl
  | cons a as ih => simpa [List.foldl] using ih (c.update a)

/-- C10: the admin-cache TTL is governed solely by `set_all`.  After any
sequence of `update` calls the `_cached_at` stamp is unchanged, so once more
than `CACHE_TTL = 3000` seconds have passed since the stamp was written all
three lookups return nothing; only `set_all` refreshes the stamp to now. -/
theorem C10_ttl_only_set_all (c : AdminCacheManager) (updates : List Admin)
    (now : ℚ) (u : String) (i : ℤ) (k : String) (admins : List Admin)
    (h : CACHE_TTL < now - c.cached_at) :
    (updates.foldl AdminCacheManager.update c).cached_at = c.cached_at
    ∧ AdminCacheManager.get_by_username now
        (updates.foldl AdminCacheManager.update c) u = none
    ∧ AdminCacheManager.get_by_id now
        (updates.foldl AdminCacheManager.update c) i = none
    ∧ AdminCacheManager.get_by_api_key now
        (updates.foldl AdminCacheManager.update c) k = none
    ∧ (AdminCacheManager.set_all now admins).cached_at = now := by
  have hc := foldl_update_cached_at c updates
  have hexp : (updates.foldl AdminCacheManager.update c).is_expired now = true := by
    rw [AdminCacheManager.is_expired, hc]
    exact decide_eq_true h
  refine ⟨hc, ?_, ?_, ?_, rfl⟩ <;>
    simp [AdminCacheManager.get_by_username, AdminCacheManager.get_by_id,
      AdminCacheManager.get_by_api_key, hexp]

/-- C10 witness: a cache stamped at time 0, written through at time 2000,
still returns nothing at time 3001. -/
theorem C10_ttl_only_set_all_witness :
    CACHE_TTL < (3001 : ℚ) - (AdminCacheManager.set_all 0 []).cached_at
    ∧ AdminCacheManager.get_by_username 3001
        ([⟨1, "root", some "k1"⟩].foldl AdminCacheManager.update
          (AdminCacheManager.set_all 0 [])) "root" = none := by
  have h : CACHE_TTL < (3001 : ℚ) - (AdminCacheManager.set_all 0 []).cached_at := by
    norm_num [CACHE_TTL, AdminCacheManager.set_all]
  exact ⟨h, (C10_ttl_only_set_all (AdminCacheManager.set_all 0 [])
    [⟨1, "root", some "k1"⟩] 3001 "root" 1 "k1" [] h).2.1⟩

/-- C8 counterexample: a live (non-removed) subscription whose `reached_at`
is older than 24 h is excluded from the GC protection set, so its
`server_key` is deleted from the node — the claim says a live
subscription's server key is never deleted. -/
theorem C8_stale_sub_deleted :
    ({ baseSub with server_key := "srv_a", reached_at := some 0 } : Subscription).removed
        = false
    ∧ gc_removals 100000 [{ baseSub with server_key := "srv_a", reached_at := some 0 }]
        ["srv_a", "guard"] = ["srv_a"] := by decide

/-- C8 amended: for each fetched node the GC pass deletes exactly the
reported usernames that are neither `"guard"` nor the `server_key` of a
loaded (non-removed) subscription **not scheduled for removal**
(`should_be_remove`, i.e. reached/inactive for more than 24 h); each such
username is deleted once (the reported set is key-unique), and `"guard"`
is never deleted. -/
theorem C8_gc_rule (now : ℤ) (subs : List Subscription)
    (users : List String) (u : String) (hnd : users.Nodup) :
    "guard" ∉ gc_removals now subs users
    ∧ (u ∈ gc_removals now subs users ↔
        u ∈ users ∧ u ≠ "guard" ∧
        ∀ s ∈ subs, s.should_be_remove now = false → s.server_key ≠ u)
    ∧ (gc_removals now subs users).Nodup := by
  refine ⟨?_, ?_, List.Nodup.filter _ hnd⟩
  · intro hmem
    have := (List.mem_filter.mp hmem).2
    simp at this
  · rw [gc_removals, List.mem_filter]
    constructor
    · rintro ⟨hu, hcond⟩
      simp only [Bool.and_eq_true, Bool.not_eq_true', decide_eq_true_eq,
        List.contains, List.elem_eq_mem, decide_eq_false_iff_not] at hcond
      refine ⟨hu, hcond.2, ?_⟩
      intro s hs hkeep hkey
      apply hcond.1
      rw [local_usernames, List.mem_map]
      exact ⟨s, List.mem_filter.mpr ⟨hs, by simp [hkeep]⟩, hkey⟩
    · rintro ⟨hu, hg, hnone⟩
      refine ⟨hu, ?_⟩
      simp only [Bool.and_eq_true, Bool.not_eq_true', decide_eq_true_eq,
        List.contains, List.elem_eq_mem, decide_eq_false_iff_not]
      refine ⟨?_, hg⟩
      intro hmem
      rw [local_usernames, List.mem_map] at hmem
      obtain ⟨s, hs, hkey⟩ := hmem
      obtain ⟨hsmem, hkeep⟩ := List.mem_filter.mp hs
      exact hnone s hsmem (by simpa using hkeep) hkey

/-- C8 witness: the orphan scenario S5 — `srv_orphan` is deleted exactly
once, `guard` and the live key `srv_alice` are untouched. -/
theorem C8_gc_rule_witness :
    "guard" ∉ gc_removals 1000 [{ baseSub with server_key := "srv_alice" }]
        ["guard", "srv_alice", "srv_orphan"]
    ∧ "srv_orphan" ∈ gc_removals 1000 [{ baseSub with server_key := "srv_alice" }]
        ["guard", "srv_alice", "srv_orphan"]
    ∧ (gc_removals 1000 [{ baseSub with server_key := "srv_alice" }]
        ["guard", "srv_alice", "srv_orphan"]).Nodup := by
  have h := C8_gc_rule 1000 [{ baseSub with server_key := "srv_alice" }]
    ["guard", "srv_alice", "srv_orphan"] "srv_orphan" (by decide)
  exact ⟨h.1, h.2.1.mpr ⟨by decide, by decide, by decide⟩, h.2.2⟩

theorem argmin_id_none {l : List Renewal} (h : argmin_id l = none) : l = [] := by
  cases l with
  | nil => rfl
  | cons a as =>
    cases hm : argmin_id as with
    | none =>
      simp only [argmin_id, hm] at h
      exact Option.noConfusion h
    | some b =>
      simp only [argmin_id, hm] at h
      by_cases hle : a.id ≤ b.id
      · rw [if_pos hle] at h; exact Option.noConfusion h
      · rw [if_neg hle] at h; exact Option.noConfusion h

theorem argmin_id_mem {l : List Renewal} {r : Renewal}
    (h : argmin_id l = some r) : r ∈ l := by
  induction l generalizing r with
  | nil => simp [argmin_id] at h
  | cons a as ih =>
    cases hm : argmin_id as with
    | none =>
      simp only [argmin_id, hm] at h
      cases h
      exact List.mem_cons_self a as
    | some b =>
      simp only [argmin_id, hm] at h
      by_cases hle : a.id ≤ b.id
      · rw [if_pos hle] at h
        cases h
        exact List.mem_cons_self a as
      · rw [if_neg hle] at h
        cases h
        exact List.mem_cons_of_mem a (ih hm)

theorem argmin_id_le {l : List Renewal} {r : Renewal}
    (h : argmin_id l = some r) : ∀ x ∈ l, r.id ≤ x.id := by
  induction l generalizing r with
  | nil => intro x hx; simp at hx
  | cons a as ih =>
    intro x hx
    cases hm : argmin_id as with
    | none =>
      simp only [argmin_id, hm] at h
      have has : as = [] := argmin_id_none hm
      subst has
      cases h
      simp at hx
      subst hx
      exact le_refl _
    | some b =>
      simp only [argmin_id, hm] at h
      rcases List.mem_cons.mp hx with hxa | hxas
      · by_cases hle : a.id ≤ b.id
        · rw [if_pos hle] at h; cases h; rw [hxa]
        · rw [if_neg hle] at h; cases h; rw [hxa]
          exact le_of_lt (lt_of_not_ge hle)
      · by_cases hle : a.id ≤ b.id
        · rw [if_pos hle] at h; cases h
          exact le_trans hle (ih hm x hxas)
        · rw [if_neg hle] at h; cases h
          exact ih hm x hxas

theorem min_id_renewal_spec {renewals : List Renewal} {sid : ℤ} {r : Renewal}
    (h : min_id_renewal renewals sid = some r) :
    r ∈ renewals ∧ r.subscription_id = sid ∧
      ∀ x ∈ renewals, x.subscription_id = sid → r.id ≤ x.id := by
  rw [min_id_renewal] at h
  have hmem := argmin_id_mem h
  have hle := argmin_id_le h
  have h1 := List.mem_filter.mp hmem
  refine ⟨h1.1, by simpa using h1.2, ?_⟩
  intro x hx hxsid
  exact hle x (List.mem_filter.mpr ⟨hx, by simpa using hxsid⟩)

/-- C3: the Reached Tracker auto-renewal batch.  For every subscription in
the batch input that still qualifies (not removed, reached, and limited or
expired) and owns at least one renewal row, the consumed row is the one
with minimum id among its rows (so over successive ticks rows go in
ascending id order), at most that one row of the subscription is deleted on
this tick, and the subscription is rewritten with the renewal's
`limit_usage`, the sign-dependent `limit_expire`, cleared
reached/reached_at/onreached flags, and — when the renewal's `reset_usage`
flag is set — `reset_usage = total_usage` and `last_reset_at = now`. -/
theorem C3_auto_renewal_fifo (now_utc now_ts : ℤ)
    (subs : List Subscription) (renewals : List Renewal)
    (s : Subscription) (r : Renewal)
    (hs : s ∈ subs)
    (hq : qualifies_renewal now_ts s = true)
    (hm : min_id_renewal renewals s.id = some r)
    (hndR : (renewals.map Renewal.id).Nodup)
    (hndS : (subs.map Subscription.id).Nodup) :
    apply_renewal now_utc now_ts s r
        ∈ (process_auto_renewals_batch now_utc now_ts subs renewals).1
    ∧ r ∈ renewals
    ∧ r.subscription_id = s.id
    ∧ (∀ x ∈ renewals, x.subscription_id = s.id → r.id ≤ x.id)
    ∧ r ∉ (process_auto_renewals_batch now_utc now_ts subs renewals).2
    ∧ (∀ x ∈ renewals, x.subscription_id = s.id → x ≠ r →
        x ∈ (process_auto_renewals_batch now_utc now_ts subs renewals).2)
    ∧ (apply_renewal now_utc now_ts s r).limit_usage = r.limit_usage
    ∧ (apply_renewal now_utc now_ts s r).limit_expire
        = new_limit_expire now_ts r.limit_expire
    ∧ (apply_renewal now_utc now_ts s r).reached = false
    ∧ (apply_renewal now_utc now_ts s r).reached_at = none
    ∧ (apply_renewal now_utc now_ts s r).onreached_expire = false
    ∧ (apply_renewal now_utc now_ts s r).onreached_usage = false
    ∧ (r.reset_usage = true →
        (apply_renewal now_utc now_ts s r).reset_usage = s.total_usage
        ∧ (apply_renewal now_utc now_ts s r).last_reset_at = some now_utc)
    ∧ (r.reset_usage = false →
        (apply_renewal now_utc now_ts s r).reset_usage = s.reset_usage
        ∧ (apply_renewal now_utc now_ts s r).last_reset_at = s.last_reset_at) := by
  have hspec := min_id_renewal_spec hm
  have hcons : consumed_renewal now_ts renewals s = some r := by
    rw [consumed_renewal, if_pos hq, hm]
  have hrid : r.id ∈ subs.filterMap
      (fun s' => (consumed_renewal now_ts renewals s').map (fun x => x.id)) :=
    List.mem_filterMap.mpr ⟨s, hs, by rw [hcons]; rfl⟩
  refine ⟨?_, hspec.1, hspec.2.1, hspec.2.2, ?_, ?_, ?_, ?_, ?_, ?_, ?_, ?_, ?_, ?_⟩
  · simp only [process_auto_renewals_batch]
    exact List.mem_map.mpr ⟨s, hs, by rw [hcons]⟩
  · intro hmem
    simp only [process_auto_renewals_batch] at hmem
    have hpred := (List.mem_filter.mp hmem).2
    rw [Bool.not_eq_true', ← Bool.not_eq_true] at hpred
    exact hpred (by simpa [List.contains, List.elem_eq_mem] using hrid)
  · intro x hx hxsid hxr
    simp only [process_auto_renewals_batch]
    refine List.mem_filter.mpr ⟨hx, ?_⟩
    rw [Bool.not_eq_true', ← Bool.not_eq_true]
    intro hcontains
    have hxid : x.id ∈ subs.filterMap
        (fun s' => (consumed_renewal now_ts renewals s').map (fun y => y.id)) := by
      simpa [List.contains, List.elem_eq_mem] using hcontains
    obtain ⟨s2, hs2, hval⟩ := List.mem_filterMap.mp hxid
    obtain ⟨m, hmcons, hmid⟩ := Option.map_eq_some'.mp hval
    have hmq : qualifies_renewal now_ts s2 = true := by
      by_contra hnq
      rw [consumed_renewal, if_neg (fun hh => hnq hh)] at hmcons
      exact Option.noConfusion hmcons
    have hmmin : min_id_renewal renewals s2.id = some m := by
      rwa [consumed_renewal, if_pos hmq] at hmcons
    have hmspec := min_id_renewal_spec hmmin
    have hmx : m = x :=
      List.inj_on_of_nodup_map hndR hmspec.1 hx hmid
    have hs2id : s2.id = s.id := by
      rw [← hmspec.2.1, hmx, hxsid]
    have hs2s : s2 = s := List.inj_on_of_nodup_map hndS hs2 hs hs2id
    rw [hs2s, hm] at hmmin
    exact hxr (by rw [← hmx, Option.some.inj hmmin])
  · cases hflag : r.reset_usage <;> simp [apply_renewal, hflag]
  · cases hflag : r.reset_usage <;> simp [apply_renewal, hflag]
  · cases hflag : r.reset_usage <;> simp [apply_renewal, hflag]
  · cases hflag : r.reset_usage <;> simp [apply_renewal, hflag]
  · cases hflag : r.reset_usage <;> simp [apply_renewal, hflag]
  · cases hflag : r.reset_usage <;> simp [apply_renewal, hflag]
  · intro hflag; simp [apply_renewal, hflag]
  · intro hflag; simp [apply_renewal, hflag]

/-- Reached-and-limited subscription fixture for the renewal scenario S2. -/
def c3_sub : Subscription :=
  { baseSub with reached := true, limit_usage := 100, total_usage := 200 }

/-- First queued renewal (consumed): id 1, with the reset flag. -/
def c3_renewalA : Renewal :=
  { id := 1, subscription_id := 7, limit_usage := 500,
    limit_expire := 86400, reset_usage := true }

/-- Second queued renewal (retained on this tick): id 2. -/
def c3_renewalB : Renewal :=
  { id := 2, subscription_id := 7, limit_usage := 300,
    limit_expire := 0, reset_usage := false }

/-- C3 witness: scenario S2 — the minimum-id renewal is consumed, the
other row survives, and the updated subscription carries the renewal's
quotas. -/
theorem C3_auto_renewal_fifo_witness :
    apply_renewal 555 555 c3_sub c3_renewalA
        ∈ (process_auto_renewals_batch 555 555 [c3_sub] [c3_renewalA, c3_renewalB]).1
    ∧ c3_renewalA ∉ (process_auto_renewals_batch 555 555 [c3_sub]
        [c3_renewalA, c3_renewalB]).2
    ∧ c3_renewalB ∈ (process_auto_renewals_batch 555 555 [c3_sub]
        [c3_renewalA, c3_renewalB]).2
    ∧ (apply_renewal 555 555 c3_sub c3_renewalA).limit_usage = 500
    ∧ (apply_renewal 555 555 c3_sub c3_renewalA).limit_expire = 555 + 86400
    ∧ (apply_renewal 555 555 c3_sub c3_renewalA).reset_usage = 200
    ∧ (apply_renewal 555 555 c3_sub c3_renewalA).reached = false := by
  have h := C3_auto_renewal_fifo 555 555 [c3_sub] [c3_renewalA, c3_renewalB]
    c3_sub c3_renewalA (by decide) (by decide) (by decide) (by decide) (by decide)
  refine ⟨h.1, h.2.2.2.2.1, h.2.2.2.2.2.1 c3_renewalB (by decide) (by decide) (by decide),
    ?_, ?_, ?_, ?_⟩
  · rw [h.2.2.2.2.2.2.1]; rfl
  · rw [h.2.2.2.2.2.2.2.1]; decide
  · exact ((h.2.2.2.2.2.2.2.2.2.2.2.2.1) rfl).1
  · exact h.2.2.2.2.2.2.2.2.1

theorem sum_max_usage_nil : sum_max_usage [] = 0 := rfl

theorem sum_max_usage_cons (r : SubscriptionUsage) (l : List SubscriptionUsage) :
    sum_max_usage (r :: l) = max r.usage 0 + sum_max_usage l := by
  simp [sum_max_usage]

theorem sum_max_usage_append (l1 l2 : List SubscriptionUsage) :
    sum_max_usage (l1 ++ l2) = sum_max_usage l1 + sum_max_usage l2 := by
  simp [sum_max_usage]

theorem credit_row_bulk_mono (now : ℤ) (rate : ℚ) (counter : ℤ)
    (r : SubscriptionUsage) (hrate : 0 ≤ rate) :
    max r.usage 0 ≤ max (credit_row_bulk now rate counter r).1.usage 0 := by
  by_cases h1 : r.rawUsage = counter
  · simp [credit_row_bulk, h1]
  · by_cases h2 : counter - r.rawUsage < 0
    · simp [credit_row_bulk, h1, h2]
    · have hd : (0 : ℤ) ≤ counter - r.rawUsage := not_lt.mp h2
      have ht : 0 ≤ truncRat (((counter - r.rawUsage : ℤ) : ℚ) * rate) :=
        truncRat_nonneg (mul_nonneg (by exact_mod_cast hd) hrate)
      simp only [credit_row_bulk, if_neg h1, if_neg h2]
      split <;> omega

theorem scan_update_mono (p : SubscriptionUsage → Bool)
    (f : SubscriptionUsage → SubscriptionUsage × Bool)
    (hf : ∀ r, p r = true → max r.usage 0 ≤ max (f r).1.usage 0) :
    ∀ l : List SubscriptionUsage,
      sum_max_usage l ≤ sum_max_usage (scan_update p f l).1 := by
  intro l
  induction l with
  | nil => exact le_refl _
  | cons a as ih =>
    by_cases hp : p a
    · simp only [scan_update, if_pos hp, sum_max_usage_cons]
      exact add_le_add_right (hf a hp) _
    · simp only [scan_update, if_neg hp, sum_max_usage_cons]
      exact add_le_add_left ih _

theorem process_entry_mono (now sid : ℤ) (e : UpsertEntry)
    (rows : List SubscriptionUsage)
    (hrate : 0 ≤ effective_rate e.node.usage_rate) :
    sum_max_usage rows ≤ sum_max_usage (process_entry now sid e rows).1 := by
  by_cases hc : e.counter ≤ 0
  · simp [process_entry, hc]
  · have hmono := scan_update_mono
      (fun r => decide (r.node_id = e.node.id) && decide (r.created_at = e.created_at))
      (credit_row_bulk now (effective_rate e.node.usage_rate) e.counter)
      (fun r _ => credit_row_bulk_mono now _ e.counter r hrate) rows
    simp only [process_entry, if_neg hc]
    split
    · exact hmono
    · rw [sum_max_usage_append, sum_max_usage_cons, sum_max_usage_nil]
      omega

theorem bulk_apply_fst_mono (now sid : ℤ) :
    ∀ (entries : List UpsertEntry) (rows : List SubscriptionUsage) (b : Bool),
      (∀ e ∈ entries, 0 ≤ effective_rate e.node.usage_rate) →
      sum_max_usage rows ≤ sum_max_usage
        (entries.foldl
          (fun acc e =>
            let q := process_entry now sid e acc.1
            (q.1, acc.2 || q.2))
          (rows, b)).1 := by
  intro entries
  induction entries with
  | nil => intro rows b _; exact le_refl _
  | cons e es ih =>
    intro rows b hrate
    have h1 := process_entry_mono now sid e rows
      (hrate e (List.mem_cons_self e es))
    have h2 := ih (process_entry now sid e rows).1
      (b || (process_entry now sid e rows).2)
      (fun x hx => hrate x (List.mem_cons_of_mem e hx))
    simpa [List.foldl] using le_trans h1 h2

theorem bulk_upsert_rows_eq (now : ℤ) (s : Subscription)
    (entries : List UpsertEntry) (rows : List SubscriptionUsage) :
    (Subscription.bulk_upsert_usages now s entries rows).1
      = (bulk_apply now s.id entries rows).1 := by
  rw [Subscription.bulk_upsert_usages]
  split <;> rfl

theorem bulk_upsert_usage_fields (now : ℤ) (s : Subscription)
    (entries : List UpsertEntry) (rows : List SubscriptionUsage) :
    (Subscription.bulk_upsert_usages now s entries rows).2.1.total_usage
        = s.total_usage
    ∧ (Subscription.bulk_upsert_usages now s entries rows).2.1.reset_usage
        = s.reset_usage := by
  rw [Subscription.bulk_upsert_usages]
  split
  · rw [Subscription.activate_expire]
    split <;> exact ⟨rfl, rfl⟩
  · exact ⟨rfl, rfl⟩

/-- Invariant tying a subscription's cached usage columns to its usage
rows: the reset marker is non-negative and no larger than the cached
total, which itself never exceeds the rows' clamped sum. -/
def usage_inv (s : Subscription) (rows : List SubscriptionUsage) : Prop :=
  0 ≤ s.reset_usage ∧ s.reset_usage ≤ s.total_usage
    ∧ s.total_usage ≤ sum_max_usage rows

/-- C7 amended: usage non-negativity holds only for non-negative node
rates.  `usage_rate` is an unvalidated float, so a negative rate is
reachable through the API and refutes the unconditional claim (see the
counterexample below).  Provided every node rate fed to the upsert has a
non-negative effective value, the invariant (which holds initially: all
three quantities are 0) gives `current_usage = total_usage - reset_usage ≥ 0`,
and every core operation — cached-usage refresh (`sync_cached_usages`),
usage reset (`reset_usages`), auto-renewal (`apply_renewal`, with or
without its reset flag), and the usage upsert (`bulk_upsert_usages`) —
preserves the invariant and hence keeps `current_usage ≥ 0`. -/
theorem C7_current_usage_nonneg (now_utc now_ts : ℤ) (s : Subscription)
    (rows : List SubscriptionUsage) (entries : List UpsertEntry) (r : Renewal)
    (hinv : usage_inv s rows)
    (hrate : ∀ e ∈ entries, 0 ≤ effective_rate e.node.usage_rate) :
    0 ≤ s.current_usage
    ∧ (usage_inv (s.sync_cached_usages rows) rows
        ∧ 0 ≤ (s.sync_cached_usages rows).current_usage)
    ∧ (usage_inv (s.reset_usages now_utc) rows
        ∧ 0 ≤ (s.reset_usages now_utc).current_usage)
    ∧ (usage_inv (apply_renewal now_utc now_ts s r) rows
        ∧ 0 ≤ (apply_renewal now_utc now_ts s r).current_usage)
    ∧ (usage_inv (Subscription.bulk_upsert_usages now_utc s entries rows).2.1
          (Subscription.bulk_upsert_usages now_utc s entries rows).1
        ∧ 0 ≤ (Subscription.bulk_upsert_usages now_utc s entries rows).2.1.current_usage) := by
  obtain ⟨h1, h2, h3⟩ := hinv
  refine ⟨by simp [Subscription.current_usage]; omega, ⟨⟨h1, ?_, ?_⟩, ?_⟩,
    ⟨⟨?_, ?_, ?_⟩, ?_⟩, ?_, ?_⟩
  · simpa [Subscription.sync_cached_usages] using le_trans h2 h3
  · simp [Subscription.sync_cached_usages]
  · simp [Subscription.sync_cached_usages, Subscription.current_usage]
    omega
  · simpa [Subscription.reset_usages] using le_trans h1 h2
  · simp [Subscription.reset_usages]
  · simpa [Subscription.reset_usages] using h3
  · simp [Subscription.reset_usages, Subscription.current_usage]
  · cases hflag : r.reset_usage <;>
      constructor <;>
      simp [apply_renewal, hflag, usage_inv, Subscription.current_usage] <;>
      omega
  · have hrows := bulk_upsert_rows_eq now_utc s entries rows
    have hfields := bulk_upsert_usage_fields now_utc s entries rows
    have hmono : sum_max_usage rows
        ≤ sum_max_usage (bulk_apply now_utc s.id entries rows).1 :=
      bulk_apply_fst_mono now_utc s.id entries rows false hrate
    refine ⟨⟨?_, ?_, ?_⟩, ?_⟩
    · rw [hfields.2]; exact h1
    · rw [hfields.1, hfields.2]; exact h2
    · rw [hfields.1, hrows]; exact le_trans h3 hmono
    · simp only [Subscription.current_usage, hfields.1, hfields.2]; omega

/-- C7 witness: the invariant holds for the zeroed fixture and is preserved
through an inserting upsert. -/
theorem C7_current_usage_nonneg_witness :
    usage_inv baseSub []
    ∧ (∀ e ∈ [(⟨baseNode, 5, 0⟩ : UpsertEntry)], 0 ≤ effective_rate e.node.usage_rate)
    ∧ 0 ≤ (Subscription.bulk_upsert_usages 99 baseSub [⟨baseNode, 5, 0⟩] []).2.1.current_usage := by
  have hinv : usage_inv baseSub [] := ⟨le_refl 0, le_refl 0, le_refl 0⟩
  have hrate : ∀ e ∈ [(⟨baseNode, 5, 0⟩ : UpsertEntry)],
      0 ≤ effective_rate e.node.usage_rate := by
    intro e he
    simp at he
    subst he
    simp [effective_rate, baseNode]
  exact ⟨hinv, hrate,
    (C7_current_usage_nonneg 99 99 baseSub [] [⟨baseNode, 5, 0⟩]
      c3_renewalA hinv hrate).2.2.2.2.2⟩

/-- Node fixture with a negative `usage_rate = -1.0`, reachable because the
API does not validate the sign of the rate. -/
def c7_negNode : Node := { baseNode with usage_rate := some (-1) }

/-- Post-reset subscription state: 500 bytes accrued and synced, then
reset, so `current_usage = 0`. -/
def c7_sub : Subscription := { baseSub with total_usage := 500, reset_usage := 500 }

/-- The usage row backing `c7_sub`: 500 adjusted bytes at counter 500. -/
def c7_row : SubscriptionUsage :=
  { subscription_id := 7
    node_id := 1
    usage := 500
    rawUsage := 500
    created_at := 0
    updated_at := 0 }

/-- C7 counterexample: the unconditional non-negativity claim fails for a
negative node rate.  Starting from a legitimate post-reset state
(`usage_inv` holds, `current_usage = 0`), a further counter delta of 500 on
a node with `usage_rate = -1.0` credits `int(500 * -1.0) = -500` bytes,
dropping the row to 0; the next `sync_cached_usages` — one of the claim's
core operations — then sets `total_usage = 0` while `reset_usage` stays
500, leaving `current_usage = -500 < 0`. -/
theorem C7_negative_rate_counterexample :
    usage_inv c7_sub [c7_row]
    ∧ 0 ≤ c7_sub.current_usage
    ∧ ((Subscription.bulk_upsert_usages 99 c7_sub [⟨c7_negNode, 1000, 0⟩]
          [c7_row]).2.1.sync_cached_usages
        (Subscription.bulk_upsert_usages 99 c7_sub [⟨c7_negNode, 1000, 0⟩]
          [c7_row]).1).current_usage = -500
    ∧ (-500 : ℤ) < 0 := by
  refine ⟨⟨by decide, by decide, by decide⟩, by decide, ?_, by decide⟩
  have hrate : effective_rate (some (-1 : ℚ)) = -1 := by
    norm_num [effective_rate]
  have htr : truncRat ((500 : ℚ) * effective_rate (some (-1 : ℚ))) = -500 := by
    rw [hrate, show (500 : ℚ) * (-1) = ((-500 : ℤ) : ℚ) by norm_num]
    exact truncRat_intCast (-500)
  have hrows : (Subscription.bulk_upsert_usages 99 c7_sub [⟨c7_negNode, 1000, 0⟩]
      [c7_row]).1 = [{ c7_row with usage := 0, rawUsage := 1000, updated_at := 99 }] := by
    simp [Subscription.bulk_upsert_usages, bulk_apply, process_entry, scan_update,
      credit_row_bulk, Subscription.activate_expire, c7_negNode, c7_row, c7_sub,
      baseNode, baseSub, htr]
  have hsub : (Subscription.bulk_upsert_usages 99 c7_sub [⟨c7_negNode, 1000, 0⟩]
      [c7_row]).2.1 = c7_sub := by
    rw [Subscription.bulk_upsert_usages]
    split
    · rw [Subscription.activate_expire, if_neg (by decide)]
    · rfl
  rw [hrows, hsub]
  decide

theorem run_pass_length_le (m : ℕ) :
    ∀ (es : List (Node × List String)) (acc : List String),
      acc.length ≤ m → (run_pass (some m) acc es).1.length ≤ m := by
  intro es
  induction es with
  | nil => intro acc h; simpa [run_pass] using h
  | cons e rest ih =>
    intro acc h
    obtain ⟨n, ls⟩ := e
    by_cases hemp : ls.isEmpty
    · simpa [run_pass, hemp] using ih acc h
    · by_cases hstop : stop_at (some m) acc.length
      · simpa [run_pass, hemp, hstop] using h
      · have hlt : acc.length < m := by
          simp [stop_at] at hstop
          omega
        have hlen : (acc ++ ls.take (min n.batch_size (m - acc.length))).length ≤ m := by
          simp [List.length_append, List.length_take]
          omega
        simpa [run_pass, hemp, hstop] using
          ih (acc ++ ls.take (min n.batch_size (m - acc.length))) hlen

theorem interleave_loop_length_le (m : ℕ) :
    ∀ (fuel : ℕ) (acc : List String) (es : List (Node × List String)),
      acc.length ≤ m → (interleave_loop (some m) fuel acc es).length ≤ m := by
  intro fuel
  induction fuel with
  | zero => intro acc es h; simpa [interleave_loop] using h
  | succ f ih =>
    intro acc es h
    by_cases hall : es.all (fun e => e.2.isEmpty)
    · simpa [interleave_loop, hall] using h
    · have h1 := run_pass_length_le m es acc h
      by_cases hstop : stop_at (some m) (run_pass (some m) acc es).1.length
      · simpa [interleave_loop, hall, hstop] using h1
      · simpa [interleave_loop, hall, hstop] using
          ih (run_pass (some m) acc es).1 (run_pass (some m) acc es).2 h1

/-- C9: shape of the link bundle.  `generate` always returns the
placeholder links first; when the subscription is inactive or has no
effective nodes the result is exactly the placeholders; and with
`owner.max_links > 0` the number of non-placeholder links never exceeds
`max_links` — over every shuffle and every cached link table. -/
theorem C9_link_bundle_shape (now_ts : ℤ) (sub : Subscription) (owner : Owner)
    (placeholders : List String) (nodes : List Node)
    (node_links : ℤ → List String) (shuffle : ℤ → List String → List String) :
    generate now_ts sub owner placeholders nodes node_links shuffle
      = placeholders ++ generate_links now_ts sub owner nodes node_links shuffle
    ∧ (sub.is_active now_ts = false →
        generate now_ts sub owner placeholders nodes node_links shuffle = placeholders)
    ∧ (nodes = [] →
        generate now_ts sub owner placeholders nodes node_links shuffle = placeholders)
    ∧ (∀ m : ℤ, owner.max_links = some m → 0 < m →
        (generate_links now_ts sub owner nodes node_links shuffle).length ≤ m.toNat) := by
  refine ⟨rfl, ?_, ?_, ?_⟩
  · intro hin
    simp [generate, generate_links, hin]
  · intro hnil
    subst hnil
    by_cases hact : sub.is_active now_ts <;>
      simp [generate, generate_links, sort_priority_desc, interleave_loop, hact]
  · intro m hmeq hmpos
    have hmax : max_links_of owner = some m.toNat := by
      simp [max_links_of, hmeq, hmpos]
    rw [generate_links]
    by_cases hact : sub.is_active now_ts
    · rw [if_pos hact, hmax]
      exact interleave_loop_length_le m.toNat _ [] _ (Nat.zero_le _)
    · rw [if_neg hact]
      exact Nat.zero_le _

/-- C9 witness: a disabled subscription yields only placeholders; an empty
node set yields only placeholders; and a `max_links = 2` owner caps the
interleaved links of an active subscription at two. -/
theorem C9_link_bundle_shape_witness :
    generate 0 { baseSub with enabled := false } ⟨none⟩ ["p1", "p2"] [baseNode]
        (fun _ => ["a", "b", "c"]) (fun _ l => l) = ["p1", "p2"]
    ∧ generate 0 baseSub ⟨none⟩ ["p1"] [] (fun _ => ["a", "b", "c"]) (fun _ l => l)
        = ["p1"]
    ∧ (generate_links 0 baseSub ⟨some 2⟩ [baseNode] (fun _ => ["a", "b", "c"])
        (fun _ l => l)).length ≤ (2 : ℤ).toNat := by
  refine ⟨?_, ?_, ?_⟩
  · exact (C9_link_bundle_shape 0 { baseSub with enabled := false } ⟨none⟩
      ["p1", "p2"] [baseNode] (fun _ => ["a", "b", "c"]) (fun _ l => l)).2.1 (by decide)
  · exact (C9_link_bundle_shape 0 baseSub ⟨none⟩ ["p1"] []
      (fun _ => ["a", "b", "c"]) (fun _ l => l)).2.2.1 rfl
  · exact (C9_link_bundle_shape 0 baseSub ⟨some 2⟩ [] [baseNode]
      (fun _ => ["a", "b", "c"]) (fun _ l => l)).2.2.2 2 rfl (by decide)

end MoGuard


